import Mathlib

/-!
Shallow embedding of the dividend / portfolio / leverage engine of `app.py`
(a Taiwan ETF dividend dashboard).  Python floats are modelled as rationals,
pandas timestamps as integers (a day index), and Python `int(...)` as
truncation toward zero.  The per-symbol fetch loop catches every exception
with a bare `except: continue`, so its observable outcomes are exactly
"a table row" or "symbol skipped"; that is reflected in `SymbolOutcome`.
-/

namespace EtfApp

/-- Python `int(q)`: truncation toward zero. -/
def pyInt (q : ℚ) : Int :=
  if 0 ≤ q then ⌊q⌋ else ⌈q⌉

/-- One dividend distribution from `stock.dividends`: its date (integer day
index) and per-share amount (app.py line 97). -/
structure DividendEvent where
  date : Int
  amount : ℚ
  deriving DecidableEq

/-- The window filter `divs[divs.index > one_year_ago]` with
`one_year_ago = now - 365 days` (app.py lines 101-102).  Only the lower
bound is tested; there is no `≤ now` test. -/
def windowFilter (events : List DividendEvent) (now : Int) : List DividendEvent :=
  events.filter (fun e => decide (now - 365 < e.date))

/-- Frequency tag strings used at app.py lines 106-109. -/
def tagMonthly : String := "月"

/-- Quarterly tag (app.py line 107). -/
def tagQuarterly : String := "季"

/-- Semi-annual tag (app.py line 108). -/
def tagSemiAnnual : String := "半"

/-- Annual tag (app.py line 109). -/
def tagAnnual : String := "年"

/-- The "no distributions" history placeholder (app.py line 98). -/
def noDivsText : String := "無配息"

/-- The separator used to join formatted amounts (app.py line 111). -/
def slash : String := "/"

/-- Frequency classification by event count, app.py lines 105-109:
`count >= 10` monthly, `count >= 3` quarterly, `count == 2` semi-annual,
otherwise annual. -/
def freqTag (count : Nat) : String :=
  if 10 ≤ count then tagMonthly
  else if 3 ≤ count then tagQuarterly
  else if count = 2 then tagSemiAnnual
  else tagAnnual

/-- Round to nearest integer, ties to even: the rounding performed by
Python float formatting with `.2f` (after scaling by 100). -/
def roundHalfEven (q : ℚ) : Int :=
  let f := ⌊q⌋
  if q - f < 1/2 then f
  else if 1/2 < q - f then f + 1
  else if f % 2 = 0 then f else f + 1

/-- Python `s.rstrip(c)` for a single-character strip set. -/
def rstripChar (s : String) (c : Char) : String :=
  String.mk ((s.data.reverse.dropWhile (fun x => x == c)).reverse)

/-- Two-digit rendering of a value below 100 (the fractional part of a
`.2f` formatting). -/
def pad2 (n : Nat) : String :=
  if n < 10 then "0" ++ toString n else toString n

/-- Python `f"{x:.2f}".rstrip('0').rstrip('.')` (app.py line 110): format
with two decimals, strip trailing zeros, then a trailing decimal point. -/
def fmt2 (q : ℚ) : String :=
  let n := roundHalfEven (q * 100)
  let m := n.natAbs
  let sgn := if n < 0 then "-" else ""
  let s := sgn ++ toString (m / 100) ++ "." ++ pad2 (m % 100)
  rstripChar (rstripChar s '0') '.'

/-- The dividend summary computed per symbol, app.py lines 97-111:
trailing-window total, the frequency tag (absent when the window is
empty), and the formatted history string. -/
structure DividendSummary where
  annualTotal : ℚ
  freqTagOpt : Option String
  history : String
  deriving DecidableEq

/-- app.py lines 97-111: filter the dividend series to the trailing
window, sum it, classify frequency by count, and format the history
(`history_str` stays "無配息" when the window is empty). -/
def summarize (events : List DividendEvent) (now : Int) : DividendSummary :=
  let w := windowFilter events now
  if w = [] then ⟨0, none, noDivsText⟩
  else
    let tag := freqTag w.length
    ⟨(w.map (fun e => e.amount)).sum, some tag,
      tag ++ ": " ++ String.intercalate slash (w.map (fun e => fmt2 e.amount))⟩

/-- A symbol's dividend series as fetched: the event list plus whether its
index carries one consistent time-zone convention.  A mixed
naive-and-aware index makes the pandas window comparison raise, which the
bare `except` at app.py line 126 turns into a silent `continue`. -/
structure DivSeries where
  tzConsistent : Bool
  events : List DividendEvent
  deriving DecidableEq

/-- What the per-symbol loop body of `get_batch_data` can do with a
symbol: append a table row, or skip the symbol (`continue`).  The bare
`except: continue` at app.py line 126 means no error is ever reported. -/
inductive SymbolOutcome where
  | row (price : ℚ) (summary : DividendSummary) : SymbolOutcome
  | skipped : SymbolOutcome
  deriving DecidableEq

/-- The per-symbol body of `get_batch_data`, app.py lines 89-126: skip on
missing or zero price (line 95), skip when the window comparison raises
(mixed time-zone index, caught at line 126), otherwise produce the row. -/
def processSymbol (price : Option ℚ) (divs : DivSeries) (now : Int) : SymbolOutcome :=
  match price with
  | none => SymbolOutcome.skipped
  | some p =>
    if p = 0 then SymbolOutcome.skipped
    else if divs.tzConsistent then SymbolOutcome.row p (summarize divs.events now)
    else SymbolOutcome.skipped

/-- Per-lot figures derived from price and trailing-year dividend total. -/
structure LotMetrics where
  pricePerLot : ℚ
  annualIncomePerLot : ℚ
  monthlyIncomePerLot : ℚ
  yieldPercent : ℚ
  deriving DecidableEq

/-- app.py lines 113-115 (per-lot price also at line 208): one lot is
1000 shares; yield is guarded by `price > 0`. -/
def computeLotMetrics (price annualTotal : ℚ) : LotMetrics :=
  ⟨price * 1000, annualTotal * 1000, annualTotal * 1000 / 12,
    if 0 < price then annualTotal / price * 100 else 0⟩

/-- The record stored in `portfolio_list`, app.py lines 220-225: the
invested amount and monthly income are stored through `int(...)`. -/
structure Holding where
  invested : Int
  lots : Int
  monthly : Int
  deriving DecidableEq

/-- The portfolio add handler, app.py lines 203-227: only a positive
price adds a holding; `sheets = int(add_money / cost)`,
`real_cost = sheets * cost` stored as `int(real_cost)`, and the monthly
income `yr_div * 1000 * sheets / 12` stored as `int(...)`. -/
def addHolding (cash price yrDiv : ℚ) : Option Holding :=
  if 0 < price then
    let cost := price * 1000
    let sheets := pyInt (cash / cost)
    let realCost := (sheets : ℚ) * cost
    let ttlYr := yrDiv * 1000 * (sheets : ℚ)
    some ⟨pyInt realCost, sheets, pyInt (ttlYr / 12)⟩
  else none

/-- Portfolio totals shown in tab 2, app.py lines 237-247. -/
structure PortTotals where
  totalInvested : Int
  totalMonthly : Int
  blendedYieldPct : ℚ
  deriving DecidableEq

/-- app.py lines 237-247: the totals stay at their initial 0 when the
list is empty; otherwise sums plus the guarded blended yield
`ttl_m * 12 / ttl_inv * 100`. -/
def aggregate (holdings : List Holding) : PortTotals :=
  if 0 < holdings.length then
    let ti := (holdings.map (fun h => h.invested)).sum
    let tm := (holdings.map (fun h => h.monthly)).sum
    ⟨ti, tm, if 0 < ti then (tm : ℚ) * 12 / (ti : ℚ) * 100 else 0⟩
  else ⟨0, 0, 0⟩

/-- The leverage projection of the tab 2 expander, app.py lines 269-290. -/
structure LeverageProjection where
  maxLoan : Int
  monthlyInterest : ℚ
  monthlyGainFromLoan : ℚ
  netMonthlyGain : ℚ
  finalMonthlyIncome : ℚ
  maintPct : ℚ
  deriving DecidableEq

/-- app.py lines 269-290: `max_loan = int(ttl_inv * (ltv / 100))`,
monthly interest and new dividend from the loan, the unclamped net gain,
the final monthly income, and the guarded maintenance percentage. -/
def projectLeverage (ttlInv yld ttlM ltv ir : ℚ) : LeverageProjection :=
  let maxLoan := pyInt (ttlInv * (ltv / 100))
  let monthlyInterest := (maxLoan : ℚ) * (ir / 100) / 12
  let newMonthly := (maxLoan : ℚ) * (yld / 100) / 12
  let net := newMonthly - monthlyInterest
  ⟨maxLoan, monthlyInterest, newMonthly, net, ttlM + net,
    if 0 < maxLoan then ((ttlInv + (maxLoan : ℚ)) / (maxLoan : ℚ)) * 100 else 0⟩

/-- The three maintenance-ratio bands of app.py lines 304-309. -/
inductive RiskBand where
  | danger
  | caution
  | safe
  deriving DecidableEq

/-- app.py lines 304-309: `< 130` danger (error), `< 160` caution
(warning), otherwise safe (success). -/
def riskBand (maint : ℚ) : RiskBand :=
  if maint < 130 then RiskBand.danger
  else if maint < 160 then RiskBand.caution
  else RiskBand.safe

/-- The history string the code produces for a single windowed event of
amount `-1`: the annual tag, a colon, and the formatted amount. -/
def negOneHistory : String := "年: -1"

/-- Claim C1 (confirmed): for every list of dividend events with
non-negative amounts, the frequency tag is determined solely by the count
of events the code keeps in the trailing window: 0 events give no tag
(the history stays the "no distributions" text), 1 gives the annual tag,
2 the semi-annual tag, 3 through 9 the quarterly tag, and 10 or more the
monthly tag. -/
theorem freq_tag_by_count (events : List DividendEvent) (now : Int)
    (hnn : ∀ e ∈ events, 0 ≤ e.amount) :
    ((windowFilter events now).length = 0 →
      (summarize events now).freqTagOpt = none ∧
      (summarize events now).history = noDivsText) ∧
    ((windowFilter events now).length = 1 →
      (summarize events now).freqTagOpt = some tagAnnual) ∧
    ((windowFilter events now).length = 2 →
      (summarize events now).freqTagOpt = some tagSemiAnnual) ∧
    (3 ≤ (windowFilter events now).length → (windowFilter events now).length ≤ 9 →
      (summarize events now).freqTagOpt = some tagQuarterly) ∧
    (10 ≤ (windowFilter events now).length →
      (summarize events now).freqTagOpt = some tagMonthly) := by
  have htag : ∀ h : ¬(windowFilter events now = []),
      (summarize events now).freqTagOpt = some (freqTag (windowFilter events now).length) := by
    intro h
    simp [summarize, h]
  refine ⟨?_, ?_, ?_, ?_, ?_⟩
  · intro h0
    have hw : windowFilter events now = [] := List.length_eq_zero.mp h0
    simp [summarize, hw]
  · intro h1
    have hne : ¬(windowFilter events now = []) := by
      intro h
      rw [h] at h1
      simp at h1
    rw [htag hne, h1]
    rfl
  · intro h2
    have hne : ¬(windowFilter events now = []) := by
      intro h
      rw [h] at h2
      simp at h2
    rw [htag hne, h2]
    rfl
  · intro h3 h9
    have hne : ¬(windowFilter events now = []) := by
      intro h
      rw [h] at h3
      simp at h3
    rw [htag hne, freqTag, if_neg (by omega), if_pos h3]
  · intro h10
    have hne : ¬(windowFilter events now = []) := by
      intro h
      rw [h] at h10
      simp at h10
    rw [htag hne, freqTag, if_pos h10]

/-- Witness for C1: a concrete two-event list with non-negative amounts,
both inside the window, receives the semi-annual tag. -/
theorem freq_tag_by_count_witness :
    (∀ e ∈ [DividendEvent.mk 0 1, DividendEvent.mk 10 2], 0 ≤ e.amount) ∧
    (summarize [DividendEvent.mk 0 1, DividendEvent.mk 10 2] 100).freqTagOpt =
      some tagSemiAnnual := by
  have hnn : ∀ e ∈ [DividendEvent.mk 0 1, DividendEvent.mk 10 2], 0 ≤ e.amount := by
    intro e he
    rcases List.mem_cons.mp he with h | h
    · rw [h]; norm_num
    · rcases List.mem_cons.mp h with h2 | h2
      · rw [h2]; norm_num
      · simp at h2
  refine ⟨hnn, (freq_tag_by_count _ 100 hnn).2.2.1 ?_⟩
  decide

/-- Claim C2 (confirmed): for non-negative portfolio totals, blended
yield and loan-to-value, the leverage projection computes
`max_loan = floor(total_invested * ltv / 100)`, the monthly interest and
loan-financed income by the stated formulas, the unclamped net monthly
gain, the final monthly income as the sum, and the guarded maintenance
percentage, with no division error in any case. -/
theorem leverage_formulas (ttlInv yld ttlM ltv ir : ℚ)
    (hti : 0 ≤ ttlInv) (hyld : 0 ≤ yld) (htm : 0 ≤ ttlM) (hltv : 0 ≤ ltv) :
    (projectLeverage ttlInv yld ttlM ltv ir).maxLoan = ⌊ttlInv * ltv / 100⌋ ∧
    (projectLeverage ttlInv yld ttlM ltv ir).monthlyInterest =
      ((projectLeverage ttlInv yld ttlM ltv ir).maxLoan : ℚ) * ir / 100 / 12 ∧
    (projectLeverage ttlInv yld ttlM ltv ir).monthlyGainFromLoan =
      ((projectLeverage ttlInv yld ttlM ltv ir).maxLoan : ℚ) * yld / 100 / 12 ∧
    (projectLeverage ttlInv yld ttlM ltv ir).netMonthlyGain =
      (projectLeverage ttlInv yld ttlM ltv ir).monthlyGainFromLoan -
        (projectLeverage ttlInv yld ttlM ltv ir).monthlyInterest ∧
    (projectLeverage ttlInv yld ttlM ltv ir).finalMonthlyIncome =
      ttlM + (projectLeverage ttlInv yld ttlM ltv ir).netMonthlyGain ∧
    (projectLeverage ttlInv yld ttlM ltv ir).maintPct =
      (if 0 < (projectLeverage ttlInv yld ttlM ltv ir).maxLoan then
        (ttlInv + ((projectLeverage ttlInv yld ttlM ltv ir).maxLoan : ℚ)) /
          ((projectLeverage ttlInv yld ttlM ltv ir).maxLoan : ℚ) * 100
       else 0) := by
  have hml : pyInt (ttlInv * (ltv / 100)) = ⌊ttlInv * ltv / 100⌋ := by
    rw [pyInt, if_pos (by positivity), mul_div_assoc]
  refine ⟨?_, ?_, ?_, ?_, ?_, ?_⟩ <;>
    simp [projectLeverage, hml] <;> ring_nf

/-- Witness for C2: the spec's worked example, total invested 300000 at
blended yield 6.5, monthly income 1625, loan-to-value 60 and annual
interest rate 2.5. -/
theorem leverage_formulas_witness :
    (0 ≤ (300000 : ℚ)) ∧ (0 ≤ (6.5 : ℚ)) ∧ (0 ≤ (1625 : ℚ)) ∧ (0 ≤ (60 : ℚ)) ∧
    ((projectLeverage 300000 6.5 1625 60 2.5).maxLoan = ⌊(300000 : ℚ) * 60 / 100⌋ ∧
    (projectLeverage 300000 6.5 1625 60 2.5).monthlyInterest =
      ((projectLeverage 300000 6.5 1625 60 2.5).maxLoan : ℚ) * 2.5 / 100 / 12 ∧
    (projectLeverage 300000 6.5 1625 60 2.5).monthlyGainFromLoan =
      ((projectLeverage 300000 6.5 1625 60 2.5).maxLoan : ℚ) * 6.5 / 100 / 12 ∧
    (projectLeverage 300000 6.5 1625 60 2.5).netMonthlyGain =
      (projectLeverage 300000 6.5 1625 60 2.5).monthlyGainFromLoan -
        (projectLeverage 300000 6.5 1625 60 2.5).monthlyInterest ∧
    (projectLeverage 300000 6.5 1625 60 2.5).finalMonthlyIncome =
      1625 + (projectLeverage 300000 6.5 1625 60 2.5).netMonthlyGain ∧
    (projectLeverage 300000 6.5 1625 60 2.5).maintPct =
      (if 0 < (projectLeverage 300000 6.5 1625 60 2.5).maxLoan then
        (300000 + ((projectLeverage 300000 6.5 1625 60 2.5).maxLoan : ℚ)) /
          ((projectLeverage 300000 6.5 1625 60 2.5).maxLoan : ℚ) * 100
       else 0)) :=
  ⟨by norm_num, by norm_num, by norm_num, by norm_num,
    leverage_formulas 300000 6.5 1625 60 2.5 (by norm_num) (by norm_num)
      (by norm_num) (by norm_num)⟩

/-- Claim C3 (confirmed): the risk band is danger exactly below 130,
caution exactly on `[130, 160)`, and safe exactly at or above 160; the
boundary values 129.99, 130, 159.99 and 160 band as stated. -/
theorem risk_band_thresholds (m : ℚ) :
    (riskBand m = RiskBand.danger ↔ m < 130) ∧
    (riskBand m = RiskBand.caution ↔ 130 ≤ m ∧ m < 160) ∧
    (riskBand m = RiskBand.safe ↔ 160 ≤ m) ∧
    riskBand (129.99 : ℚ) = RiskBand.danger ∧
    riskBand (130 : ℚ) = RiskBand.caution ∧
    riskBand (159.99 : ℚ) = RiskBand.caution ∧
    riskBand (160 : ℚ) = RiskBand.safe := by
  refine ⟨?_, ?_, ?_, ?_, ?_, ?_, ?_⟩
  · unfold riskBand
    split_ifs with h1 h2 <;> simp_all
  · unfold riskBand
    split_ifs with h1 h2 <;> simp_all
  · unfold riskBand
    split_ifs with h1 h2 <;> simp_all <;> linarith
  · unfold riskBand
    norm_num
  · unfold riskBand
    norm_num
  · unfold riskBand
    norm_num
  · unfold riskBand
    norm_num

/-- Counterexample to claim C4: malformed input is NOT failed loudly.  A
mixed-time-zone series makes the per-symbol computation raise and the
bare `except` silently skips the symbol, and a negative amount flows
straight into a normal table row (total `-1`), with no reported error
value anywhere. -/
theorem malformed_silent_cex :
    processSymbol (some 10) (DivSeries.mk false [DividendEvent.mk 0 1]) 100 =
      SymbolOutcome.skipped ∧
    processSymbol (some 10) (DivSeries.mk true [DividendEvent.mk 0 (-1)]) 100 =
      SymbolOutcome.row 10 (DividendSummary.mk (-1) (some tagAnnual) negOneHistory) := by
  constructor
  · simp [processSymbol]
  · have hw : windowFilter [DividendEvent.mk 0 (-1)] 100 = [DividendEvent.mk 0 (-1)] := by
      decide
    have hf : fmt2 (-1 : ℚ) = "-1" := by
      have h : roundHalfEven ((-1 : ℚ) * 100) = -100 := by
        unfold roundHalfEven
        norm_num
      simp only [fmt2, h]
      decide
    have hsum : summarize [DividendEvent.mk 0 (-1)] 100 =
        DividendSummary.mk (-1) (some tagAnnual) negOneHistory := by
      simp [summarize, hw, freqTag, DividendSummary.mk.injEq, hf]
      decide
    simp [processSymbol, hsum]

/-- Claim C4 as amended: the code has no loud-failure path for malformed
dividend data.  For a nonzero price, the symbol yields a normal row when
the series is time-zone-consistent — with any negative amounts silently
included in the annual total — and is silently skipped (dropped from the
output, not reported) when the mixed-time-zone comparison raises. -/
theorem malformed_silent (p : ℚ) (divs : DivSeries) (now : Int) (hp : ¬(p = 0)) :
    processSymbol (some p) divs now =
      (if divs.tzConsistent then SymbolOutcome.row p (summarize divs.events now)
       else SymbolOutcome.skipped) ∧
    (summarize divs.events now).annualTotal =
      ((windowFilter divs.events now).map (fun e => e.amount)).sum := by
  constructor
  · simp [processSymbol, hp]
  · by_cases hw : windowFilter divs.events now = [] <;> simp [summarize, hw]

/-- Witness for the amended C4 at the negative-amount input. -/
theorem malformed_silent_witness :
    ¬((10 : ℚ) = 0) ∧
    (processSymbol (some 10) (DivSeries.mk true [DividendEvent.mk 0 (-1)]) 100 =
      (if (DivSeries.mk true [DividendEvent.mk 0 (-1)]).tzConsistent then
        SymbolOutcome.row 10 (summarize [DividendEvent.mk 0 (-1)] 100)
       else SymbolOutcome.skipped) ∧
    (summarize [DividendEvent.mk 0 (-1)] 100).annualTotal =
      ((windowFilter [DividendEvent.mk 0 (-1)] 100).map (fun e => e.amount)).sum) :=
  ⟨by norm_num, malformed_silent 10 (DivSeries.mk true [DividendEvent.mk 0 (-1)]) 100
    (by norm_num)⟩

/-- Counterexample to claim C5: the code's window has no upper bound.  An
event dated after `now` (day 1001 versus `now` = 1000) lies outside the
claimed window `(now - 365, now]`, yet it is kept: the annual total is 1
and a frequency tag is produced instead of the empty-window result. -/
theorem window_upper_cex :
    ¬((1001 : Int) ≤ 1000) ∧
    (summarize [DividendEvent.mk 1001 1] 1000).annualTotal = 1 ∧
    (summarize [DividendEvent.mk 1001 1] 1000).freqTagOpt = some tagAnnual := by
  have hw : windowFilter [DividendEvent.mk 1001 1] 1000 = [DividendEvent.mk 1001 1] := by
    decide
  refine ⟨by decide, ?_, ?_⟩
  · simp [summarize, hw]
  · simp [summarize, hw, freqTag]

/-- Claim C5 as amended: summarization keeps exactly the events dated
strictly after `now - 365` (no upper bound), the annual total is the sum
of the kept amounts, and an empty window gives no tag, total 0 and the
"no distributions" history. -/
theorem window_lower_bound_only (events : List DividendEvent) (now : Int) :
    (∀ e, e ∈ windowFilter events now ↔ e ∈ events ∧ now - 365 < e.date) ∧
    (summarize events now).annualTotal =
      ((windowFilter events now).map (fun e => e.amount)).sum ∧
    (summarize events now).freqTagOpt =
      (if windowFilter events now = [] then none
       else some (freqTag (windowFilter events now).length)) ∧
    (summarize events now).history =
      (if windowFilter events now = [] then noDivsText
       else freqTag (windowFilter events now).length ++ ": " ++
         String.intercalate slash ((windowFilter events now).map (fun e => fmt2 e.amount))) := by
  refine ⟨?_, ?_, ?_, ?_⟩
  · intro e
    simp [windowFilter, List.mem_filter]
  · by_cases hw : windowFilter events now = [] <;> simp [summarize, hw]
  · by_cases hw : windowFilter events now = [] <;> simp [summarize, hw]
  · by_cases hw : windowFilter events now = [] <;> simp [summarize, hw]

/-- Claim C6 (confirmed): lot metrics satisfy
`price_per_lot = price * 1000`, `annual_income_per_lot = total * 1000`,
`monthly_income_per_lot = annual_income_per_lot / 12`, and the guarded
yield percentage; the inputs (27.5, 1.8) give 27500, 1800, 150 and
72/11 = 6.5454... percent. -/
theorem lot_metrics_formulas (price annualTotal : ℚ) :
    (computeLotMetrics price annualTotal).pricePerLot = price * 1000 ∧
    (computeLotMetrics price annualTotal).annualIncomePerLot = annualTotal * 1000 ∧
    (computeLotMetrics price annualTotal).monthlyIncomePerLot =
      (computeLotMetrics price annualTotal).annualIncomePerLot / 12 ∧
    (computeLotMetrics price annualTotal).yieldPercent =
      (if 0 < price then annualTotal / price * 100 else 0) ∧
    computeLotMetrics (27.5 : ℚ) (1.8 : ℚ) = ⟨27500, 1800, 150, 72/11⟩ := by
  refine ⟨rfl, rfl, rfl, rfl, ?_⟩
  simp only [computeLotMetrics, LotMetrics.mk.injEq]
  norm_num

/-- Counterexample to claim C7: the recorded invested amount is the
stored `int(real_cost)`, not exactly `lots * price_per_lot`.  With cash
100000 at price 27.5549 per share (27554.9 per lot) the code stores
82664 while 3 lots cost 82664.7; and with cash 5 at 2.6 per lot the
leftover 5 - 2 = 3 is not below the per-lot price. -/
theorem holding_trunc_cex :
    addHolding 100000 (27.5549 : ℚ) 0 = some ⟨82664, 3, 0⟩ ∧
    ((82664 : ℚ) ≠ 3 * ((27.5549 : ℚ) * 1000)) ∧
    addHolding 5 (0.0026 : ℚ) 0 = some ⟨2, 1, 0⟩ ∧
    ¬((5 : ℚ) - 2 < (0.0026 : ℚ) * 1000) := by
  refine ⟨?_, by norm_num, ?_, by norm_num⟩
  · have h1 : pyInt ((100000 : ℚ) / (27.5549 * 1000)) = 3 := by
      rw [pyInt, if_pos (by norm_num)]
      norm_num [Int.floor_eq_iff]
    have h2 : pyInt (((3 : ℤ) : ℚ) * (27.5549 * 1000)) = 82664 := by
      rw [pyInt, if_pos (by norm_num)]
      norm_num [Int.floor_eq_iff]
    simp only [addHolding, if_pos (show (0 : ℚ) < 27.5549 by norm_num), h1, h2]
    norm_num [pyInt]
  · have h1 : pyInt ((5 : ℚ) / (0.0026 * 1000)) = 1 := by
      rw [pyInt, if_pos (by norm_num)]
      norm_num [Int.floor_eq_iff]
    have h2 : pyInt (((1 : ℤ) : ℚ) * (0.0026 * 1000)) = 2 := by
      rw [pyInt, if_pos (by norm_num)]
      norm_num [Int.floor_eq_iff]
    simp only [addHolding, if_pos (show (0 : ℚ) < 0.0026 by norm_num), h1, h2]
    norm_num [pyInt]

/-- Claim C7 as amended: for cash at least 0 and a positive price, a
holding is created with `lots = floor(cash / price_per_lot)`, its
recorded invested amount is `floor(lots * price_per_lot)` (the stored
`int(real_cost)`), the leftover cash is at least 0 and below
`price_per_lot + 1`, and when the per-lot price is an integer the
original exactness `invested = lots * price_per_lot` and the strict
leftover bound `< price_per_lot` both hold. -/
theorem holding_floor (cash p d : ℚ) (hc : 0 ≤ cash) (hp : 0 < p) :
    ∃ h, addHolding cash p d = some h ∧
      h.lots = ⌊cash / (p * 1000)⌋ ∧
      h.invested = ⌊(⌊cash / (p * 1000)⌋ : ℚ) * (p * 1000)⌋ ∧
      0 ≤ cash - (h.invested : ℚ) ∧
      cash - (h.invested : ℚ) < p * 1000 + 1 ∧
      ((p * 1000 : ℚ).den = 1 →
        (h.invested : ℚ) = (h.lots : ℚ) * (p * 1000) ∧
        cash - (h.invested : ℚ) < p * 1000) := by
  have hppl : (0 : ℚ) < p * 1000 := by positivity
  have hq : (0 : ℚ) ≤ cash / (p * 1000) := by positivity
  have hs0 : (0 : ℤ) ≤ ⌊cash / (p * 1000)⌋ := Int.floor_nonneg.mpr hq
  have hs0q : (0 : ℚ) ≤ (⌊cash / (p * 1000)⌋ : ℚ) := by exact_mod_cast hs0
  have hrc : (0 : ℚ) ≤ (⌊cash / (p * 1000)⌋ : ℚ) * (p * 1000) :=
    mul_nonneg hs0q (le_of_lt hppl)
  have hsheets : pyInt (cash / (p * 1000)) = ⌊cash / (p * 1000)⌋ := by
    rw [pyInt, if_pos hq]
  have hinv : pyInt ((⌊cash / (p * 1000)⌋ : ℚ) * (p * 1000)) =
      ⌊(⌊cash / (p * 1000)⌋ : ℚ) * (p * 1000)⌋ := by
    rw [pyInt, if_pos hrc]
  have hsle : (⌊cash / (p * 1000)⌋ : ℚ) * (p * 1000) ≤ cash := by
    rw [← le_div_iff₀ hppl]
    exact Int.floor_le _
  have hfle : ((⌊(⌊cash / (p * 1000)⌋ : ℚ) * (p * 1000)⌋ : ℤ) : ℚ) ≤
      (⌊cash / (p * 1000)⌋ : ℚ) * (p * 1000) := Int.floor_le _
  have hcash_lt : cash < ((⌊cash / (p * 1000)⌋ : ℚ) + 1) * (p * 1000) := by
    rw [← div_lt_iff₀ hppl]
    exact Int.lt_floor_add_one _
  have hfgt : (⌊cash / (p * 1000)⌋ : ℚ) * (p * 1000) - 1 <
      ((⌊(⌊cash / (p * 1000)⌋ : ℚ) * (p * 1000)⌋ : ℤ) : ℚ) := Int.sub_one_lt_floor _
  refine ⟨⟨⌊(⌊cash / (p * 1000)⌋ : ℚ) * (p * 1000)⌋, ⌊cash / (p * 1000)⌋,
      pyInt (d * 1000 * (⌊cash / (p * 1000)⌋ : ℚ) / 12)⟩, ?_, rfl, rfl, ?_, ?_, ?_⟩
  · simp only [addHolding, if_pos hp, hsheets, hinv]
  · linarith
  · nlinarith
  · intro hden
    obtain ⟨n, hn⟩ : ∃ n : ℤ, (n : ℚ) = p * 1000 :=
      ⟨(p * 1000 : ℚ).num, Rat.coe_int_num_of_den_eq_one hden⟩
    have hexact : ((⌊(⌊cash / (p * 1000)⌋ : ℚ) * (p * 1000)⌋ : ℤ) : ℚ) =
        (⌊cash / (p * 1000)⌋ : ℚ) * (p * 1000) := by
      rw [← hn, ← Int.cast_mul, Int.floor_intCast, Int.cast_mul]
    constructor
    · exact hexact
    · rw [hexact]
      nlinarith

/-- Witness for the amended C7: cash 100000 at 27.5 per share buys 3
lots for a recorded 82500, leaving 17500 uninvested. -/
theorem holding_floor_witness :
    (0 ≤ (100000 : ℚ)) ∧ (0 < (27.5 : ℚ)) ∧
    addHolding 100000 (27.5 : ℚ) (1.8 : ℚ) = some ⟨82500, 3, 450⟩ ∧
    (100000 : ℚ) - 82500 = 17500 ∧
    (∃ h, addHolding 100000 (27.5 : ℚ) (1.8 : ℚ) = some h ∧
      h.lots = ⌊(100000 : ℚ) / (27.5 * 1000)⌋ ∧
      h.invested = ⌊(⌊(100000 : ℚ) / (27.5 * 1000)⌋ : ℚ) * (27.5 * 1000)⌋ ∧
      0 ≤ (100000 : ℚ) - (h.invested : ℚ) ∧
      (100000 : ℚ) - (h.invested : ℚ) < 27.5 * 1000 + 1 ∧
      (((27.5 : ℚ) * 1000).den = 1 →
        (h.invested : ℚ) = (h.lots : ℚ) * (27.5 * 1000) ∧
        (100000 : ℚ) - (h.invested : ℚ) < 27.5 * 1000)) := by
  refine ⟨by norm_num, by norm_num, ?_, by norm_num,
    holding_floor 100000 27.5 1.8 (by norm_num) (by norm_num)⟩
  have h1 : pyInt ((100000 : ℚ) / (27.5 * 1000)) = 3 := by
    rw [pyInt, if_pos (by norm_num)]
    norm_num [Int.floor_eq_iff]
  have h2 : pyInt (((3 : ℤ) : ℚ) * (27.5 * 1000)) = 82500 := by
    rw [pyInt, if_pos (by norm_num)]
    norm_num [Int.floor_eq_iff]
  simp only [addHolding, if_pos (show (0 : ℚ) < 27.5 by norm_num), h1, h2]
  norm_num [pyInt, Int.floor_eq_iff]

/-- Claim C8 (confirmed): aggregation returns the sum of invested
amounts, the sum of monthly incomes, and the blended yield
`total_monthly * 12 / total_invested * 100` guarded to 0 when the
invested total is not positive; the empty list gives all zeros with no
division error. -/
theorem aggregate_totals (hs : List Holding) :
    (aggregate hs).totalInvested = (hs.map (fun h => h.invested)).sum ∧
    (aggregate hs).totalMonthly = (hs.map (fun h => h.monthly)).sum ∧
    (aggregate hs).blendedYieldPct =
      (if 0 < (hs.map (fun h => h.invested)).sum then
        ((hs.map (fun h => h.monthly)).sum : ℚ) * 12 /
          ((hs.map (fun h => h.invested)).sum : ℚ) * 100
       else 0) ∧
    aggregate [] = ⟨0, 0, 0⟩ := by
  rcases hs with _ | ⟨a, t⟩ <;> simp [aggregate, Function.comp_def]

/-- Claim C9 (confirmed): for a date-sorted event list with a nonempty
window, the history renders each amount by two-decimal formatting with
trailing zeros and a trailing point stripped, joined in chronological
(list) order by the slash separator, prefixed by the frequency tag; the
window keeps the chronological order, and 1.50, 2.00 and 1.23 render as
"1.5", "2" and "1.23". -/
theorem history_format (events : List DividendEvent) (now : Int)
    (hsorted : events.Pairwise (fun a b => a.date ≤ b.date))
    (hne : ¬(windowFilter events now = [])) :
    (summarize events now).history =
      freqTag (windowFilter events now).length ++ ": " ++
        String.intercalate slash ((windowFilter events now).map (fun e => fmt2 e.amount)) ∧
    (windowFilter events now).Pairwise (fun a b => a.date ≤ b.date) ∧
    fmt2 (1.50 : ℚ) = "1.5" ∧ fmt2 (2.00 : ℚ) = "2" ∧ fmt2 (1.23 : ℚ) = "1.23" := by
  have h150 : roundHalfEven ((1.50 : ℚ) * 100) = 150 := by
    unfold roundHalfEven
    norm_num
  have h200 : roundHalfEven ((2.00 : ℚ) * 100) = 200 := by
    unfold roundHalfEven
    norm_num
  have h123 : roundHalfEven ((1.23 : ℚ) * 100) = 123 := by
    unfold roundHalfEven
    norm_num
  refine ⟨by simp [summarize, hne], ?_, ?_, ?_, ?_⟩
  · exact List.Pairwise.sublist (List.filter_sublist _) hsorted
  · simp only [fmt2, h150]
    decide
  · simp only [fmt2, h200]
    decide
  · simp only [fmt2, h123]
    decide

/-- Witness for C9: a sorted two-event list with a nonempty window. -/
theorem history_format_witness :
    ([DividendEvent.mk 0 1, DividendEvent.mk 10 2].Pairwise (fun a b => a.date ≤ b.date)) ∧
    ¬(windowFilter [DividendEvent.mk 0 1, DividendEvent.mk 10 2] 100 = []) ∧
    ((summarize [DividendEvent.mk 0 1, DividendEvent.mk 10 2] 100).history =
      freqTag (windowFilter [DividendEvent.mk 0 1, DividendEvent.mk 10 2] 100).length ++ ": " ++
        String.intercalate slash
          ((windowFilter [DividendEvent.mk 0 1, DividendEvent.mk 10 2] 100).map
            (fun e => fmt2 e.amount)) ∧
    (windowFilter [DividendEvent.mk 0 1, DividendEvent.mk 10 2] 100).Pairwise
      (fun a b => a.date ≤ b.date) ∧
    fmt2 (1.50 : ℚ) = "1.5" ∧ fmt2 (2.00 : ℚ) = "2" ∧ fmt2 (1.23 : ℚ) = "1.23") := by
  have hs : ([DividendEvent.mk 0 1, DividendEvent.mk 10 2].Pairwise
      (fun a b => a.date ≤ b.date)) := by
    decide
  have hne : ¬(windowFilter [DividendEvent.mk 0 1, DividendEvent.mk 10 2] 100 = []) := by
    decide
  exact ⟨hs, hne, history_format _ 100 hs hne⟩

/-- Claim C10 (confirmed): with a positive invested total and a
loan-to-value in the slider's range (0, 60], whenever the computed loan
is positive the maintenance percentage is at least 800/3 (about 266.67),
so the leverage projection always lands in the safe band — danger and
caution are unreachable from the application's own slider. -/
theorem leverage_always_safe (ttlInv yld ttlM ltv ir : ℚ)
    (hti : 0 < ttlInv) (hltv : 0 < ltv) (hltv60 : ltv ≤ 60)
    (hml : 0 < (projectLeverage ttlInv yld ttlM ltv ir).maxLoan) :
    800/3 ≤ (projectLeverage ttlInv yld ttlM ltv ir).maintPct ∧
    riskBand (projectLeverage ttlInv yld ttlM ltv ir).maintPct = RiskBand.safe := by
  set ml : Int := pyInt (ttlInv * (ltv / 100)) with hmldef
  have hml0 : 0 < ml := hml
  have hmlq : (0 : ℚ) < (ml : ℚ) := by exact_mod_cast hml0
  have hle : (ml : ℚ) ≤ ttlInv * (ltv / 100) := by
    rw [hmldef, pyInt, if_pos (by positivity)]
    exact Int.floor_le _
  have hle2 : ttlInv * (ltv / 100) ≤ ttlInv * (60 / 100) := by
    apply mul_le_mul_of_nonneg_left _ (le_of_lt hti)
    linarith
  have hkey : (5 : ℚ) / 3 * (ml : ℚ) ≤ ttlInv := by
    nlinarith
  have hmaint : (projectLeverage ttlInv yld ttlM ltv ir).maintPct =
      (ttlInv + (ml : ℚ)) / (ml : ℚ) * 100 := by
    simp only [projectLeverage, if_pos hml0]
  have hge : 800/3 ≤ (ttlInv + (ml : ℚ)) / (ml : ℚ) * 100 := by
    rw [div_mul_eq_mul_div, le_div_iff₀ hmlq]
    nlinarith
  refine ⟨by rw [hmaint]; exact hge, ?_⟩
  rw [hmaint]
  unfold riskBand
  rw [if_neg (by linarith), if_neg (by linarith)]

/-- Witness for C10: invested total 300000 with the slider's maximum
loan-to-value of 60 yields a positive loan of 180000 and a safe band. -/
theorem leverage_always_safe_witness :
    (0 < (300000 : ℚ)) ∧ (0 < (60 : ℚ)) ∧ ((60 : ℚ) ≤ 60) ∧
    0 < (projectLeverage 300000 0 0 60 0).maxLoan ∧
    (800/3 ≤ (projectLeverage 300000 0 0 60 0).maintPct ∧
      riskBand (projectLeverage 300000 0 0 60 0).maintPct = RiskBand.safe) := by
  have h4 : 0 < (projectLeverage 300000 0 0 60 0).maxLoan := by
    show 0 < pyInt ((300000 : ℚ) * (60 / 100))
    rw [pyInt, if_pos (by norm_num)]
    norm_num [Int.floor_eq_iff]
  exact ⟨by norm_num, by norm_num, by norm_num, h4,
    leverage_always_safe 300000 0 0 60 0 (by norm_num) (by norm_num) (by norm_num) h4⟩

end EtfApp
